import Mathlib

/-!
Verification of the reflection-driven O/R mapping core of the toolkit
repository (packages `sql` and `tx`).

The Go source is shallowly embedded: a record type is a list of field
descriptors (name, optional `sql` tag, type); the reflection-based
functions of `sql/sql.go` (`listStructFields`/`addStructFields`,
`bufferToFields`/`bufferToField`, `QueryStructStmt`, `FindStructStmt`,
`ForInsert`/`forSelect`, `buildObjectFields`/`fieldsToBuffer`) and the
transaction runtime of package `tx` (`resolveStmt`, `InsertMapped`,
`AddFuture`, `doExecute`, `doExecuteRO`) become total Lean functions over
that embedding.  Panics (`util.CheckErr`, explicit `panic`) are modelled
as `Except.error`.
-/

namespace Toolkit

/-- Scalar payloads that a scanned column cell can carry. -/
inductive Sc : Type where
| intV : Int → Sc
| strV : String → Sc
deriving DecidableEq, Repr

/-- A scan-destination cell after `Rows.Scan`.  Every leaf gets one cell of
the leaf's declared Go type (`QueryStructStmt` allocates it with
`reflect.New(fields[i].Type)`).  Under the mapping convention leaf fields
are pointer-typed (`*int64`, `*string`, `*time.Time`, `*json.RawMessage`),
so the scanned value is a possibly-nil pointer; a `[]byte` leaf's cell is
slice-kind, for which reflect's `Kind() == reflect.Ptr` test is false. -/
inductive Cell : Type where
| ptrNil : Cell
| ptrVal : Sc → Cell
| sliceVal : Option Sc → Cell
deriving DecidableEq, Repr

/- Go field types as distinguished by the reflection code:
`scalar` is any pointer-to-non-struct leaf (`*int64`, `*string`, ...),
`time` is a by-value `time.Time`, `ptrTime` is `*time.Time`,
`bytes` is `[]byte`, `rawMessage` is `*json.RawMessage`,
`slice` is any other slice/array type, and `structVal`/`ptrStruct` are
nested records by value and by reference. -/
mutual
/-- Go field types used by the reflection dispatch (see above). -/
inductive Ty : Type where
| scalar : Ty
| time : Ty
| ptrTime : Ty
| bytes : Ty
| rawMessage : Ty
| slice : Ty
| structVal : List Fld → Ty
| ptrStruct : List Fld → Ty

/-- A struct field: identifier, optional `sql` tag, type
(Go `reflect.StructField` restricted to what the code consults). -/
inductive Fld : Type where
| mk : String → Option String → Ty → Fld
end

def Fld.fname : Fld → String
| Fld.mk nm _ _ => nm

def Fld.tag : Fld → Option String
| Fld.mk _ tg _ => tg

def Fld.ty : Fld → Ty
| Fld.mk _ _ t => t

/-- `isArrayField` (sql.go): slice/array kind, excluding `[]byte` and
`json.RawMessage` (these are separate constructors here). -/
def isArrayField : Ty → Bool
| Ty.slice => true
| _ => false

mutual
/-- The loop body of `addStructFields` (sql.go): walk fields in declaration
order; splice nested records (by value or by pointer, except `time.Time`)
in place; omit array fields; emit every other field as one leaf.
The Go accumulator-append is rendered as list concatenation. -/
def addFieldsList : List Fld → List Fld
| [] => []
| f :: rest => addOneField f ++ addFieldsList rest

/-- One iteration of the `addStructFields` loop for a single field. -/
def addOneField : Fld → List Fld
| Fld.mk nm tg ty =>
  match ty with
  | Ty.ptrStruct fs => addFieldsList fs
  | Ty.structVal fs => addFieldsList fs
  | Ty.slice => []
  | t => [Fld.mk nm tg t]
end

/-- `listStructFields` (sql.go): flatten a struct type's fields starting at
`offset` (the loop `for i := offset; ...`; recursive calls use offset 0). -/
def listStructFields (fs : List Fld) (offset : Nat) : List Fld :=
  addFieldsList (fs.drop offset)

/-- Claim C7: the flattener walks fields in declaration order, splices
nested records (by value or by reference) depth-first in place, treats the
timestamp types as atomic leaves, omits array/slice fields, keeps byte-blob
and raw-JSON fields as single leaves, and emits one leaf per other field. -/
theorem flattener_declaration_order_depth_first
    (nm : String) (tg : Option String) (fs rest : List Fld) :
    addFieldsList (Fld.mk nm tg (Ty.structVal fs) :: rest)
      = addFieldsList fs ++ addFieldsList rest ∧
    addFieldsList (Fld.mk nm tg (Ty.ptrStruct fs) :: rest)
      = addFieldsList fs ++ addFieldsList rest ∧
    addFieldsList (Fld.mk nm tg Ty.slice :: rest) = addFieldsList rest ∧
    addFieldsList (Fld.mk nm tg Ty.time :: rest)
      = Fld.mk nm tg Ty.time :: addFieldsList rest ∧
    addFieldsList (Fld.mk nm tg Ty.ptrTime :: rest)
      = Fld.mk nm tg Ty.ptrTime :: addFieldsList rest ∧
    addFieldsList (Fld.mk nm tg Ty.bytes :: rest)
      = Fld.mk nm tg Ty.bytes :: addFieldsList rest ∧
    addFieldsList (Fld.mk nm tg Ty.rawMessage :: rest)
      = Fld.mk nm tg Ty.rawMessage :: addFieldsList rest ∧
    addFieldsList (Fld.mk nm tg Ty.scalar :: rest)
      = Fld.mk nm tg Ty.scalar :: addFieldsList rest ∧
    addFieldsList [] = ([] : List Fld) := by
  refine ⟨?_, ?_, ?_, ?_, ?_, ?_, ?_, ?_, ?_⟩ <;>
    simp [addFieldsList, addOneField]

/-- A materialized Go value sitting in a record field:
`cell` is the content of a pointer-typed (or `[]byte`) leaf field,
`arrZ` is an array/slice field left at its zero value (never scanned),
`structV` is a by-value nested record, `ptrStructV` a nested record
pointer (`none` = nil). -/
inductive RVal : Type where
| cell : Option Sc → RVal
| arrZ : RVal
| structV : List RVal → RVal
| ptrStructV : Option (List RVal) → RVal

/-- The test `indirect.Kind() == reflect.Ptr && !indirect.IsNil()` of
`bufferToField`: true only for a non-nil pointer-kind cell value
(a `[]byte` cell is slice-kind, hence never passes). -/
def cellNonNilPtr : Cell → Bool
| Cell.ptrVal _ => true
| _ => false

/-- The scanned content a cell contributes when assigned into its leaf. -/
def cellValue : Cell → Option Sc
| Cell.ptrNil => none
| Cell.ptrVal v => some v
| Cell.sliceVal v => v

mutual
/-- `bufferToField` (sql.go): processes one (non-array) field.  Reads the
cell at position `n + offset` (the first cell of this field's sub-tree),
reports in the returned flag whether `object.Set(instance.Addr())` fired
(`cell is a non-nil pointer && !created`), then dispatches on the field's
kind.  Returns the updated running index `n` and the field's value.
A by-value nested record or by-value `time.Time` makes Go's
`isStructField` call `value.Type().Elem()` on a struct-kind value, which
panics in `reflect`; that panic is the `Except.error` below. -/
def bufferToField (buffer : List Cell) (offset n : Nat) (created : Bool)
    (f : Fld) : Except String (Nat × RVal × Bool) :=
  match f with
  | Fld.mk _ _ ty =>
    let v := buffer.getD (n + offset) Cell.ptrNil
    let trig := cellNonNilPtr v && !created
    match ty with
    | Ty.ptrStruct fs =>
      -- `n += bufferToFields(of, buffer, n+offset)` with `of` a struct
      -- pointer: fresh instance, `created = false`.
      match bufferToFieldsLoop fs buffer (n + offset) 0 false with
      | Except.error e => Except.error e
      | Except.ok (k, vs, innerTrig) =>
        Except.ok (n + k, RVal.ptrStructV (if innerTrig then some vs else none), trig)
    | Ty.structVal _ => Except.error "reflect: Elem of invalid type"
    | Ty.time => Except.error "reflect: Elem of invalid type"
    | _ =>
      -- scalar, *time.Time, []byte and *json.RawMessage leaves all end up
      -- storing the scanned cell content (`of.Set(indirect)`; the
      -- RawMessage branch's nil test compares a typed non-nil interface
      -- with nil, so its conversion branch always runs).
      Except.ok (n + 1, RVal.cell (cellValue v), trig)

/-- The field loop of `bufferToFields` (sql.go): array fields are skipped
(left at their zero value, consuming no cell); `created` is passed to each
iteration unchanged, exactly as in the source, where the loop never updates
it.  The returned flag records whether any iteration fired `object.Set`. -/
def bufferToFieldsLoop (flds : List Fld) (buffer : List Cell)
    (offset n : Nat) (created : Bool) :
    Except String (Nat × List RVal × Bool) :=
  match flds with
  | [] => Except.ok (n, [], false)
  | f :: rest =>
    if isArrayField f.ty then
      match bufferToFieldsLoop rest buffer offset n created with
      | Except.error e => Except.error e
      | Except.ok (k, vs, t) => Except.ok (k, RVal.arrZ :: vs, t)
    else
      match bufferToField buffer offset n created f with
      | Except.error e => Except.error e
      | Except.ok (n1, v, t1) =>
        match bufferToFieldsLoop rest buffer offset n1 created with
        | Except.error e => Except.error e
        | Except.ok (k, vs, t2) => Except.ok (k, v :: vs, t1 || t2)
end

/-- `bufferToFields` on a struct-pointer object (`isPtrStruct = true`):
a fresh instance is filled with `created = false`; the pointer ends up set
iff some iteration fired `object.Set`.  Returns cells consumed and the
final pointer value. -/
def bufferToFieldsPtr (flds : List Fld) (buffer : List Cell) (offset : Nat) :
    Except String (Nat × Option (List RVal)) :=
  match bufferToFieldsLoop flds buffer offset 0 false with
  | Except.error e => Except.error e
  | Except.ok (n, vs, trig) => Except.ok (n, if trig then some vs else none)

/-- `bufferToFields` on a struct value (`isPtrStruct = false`, so
`created = true` and the fields are assigned directly). -/
def bufferToFieldsVal (flds : List Fld) (buffer : List Cell) (offset : Nat) :
    Except String (Nat × List RVal) :=
  match bufferToFieldsLoop flds buffer offset 0 true with
  | Except.error e => Except.error e
  | Except.ok (n, vs, _) => Except.ok (n, vs)

/-- A driver result set: the column count reported by `Rows.Columns` and
the scanned rows (each row lists the cell values Scan produces, one per
result column). -/
structure ResultSet where
  cols : Nat
  rows : List (List Cell)

def schemaMismatchMsg : String :=
  "Result set column count greater than struct field count"

def scanCountMismatchMsg : String :=
  "sql: expected destination arguments in Scan"

/-- The row loop of `QueryStructStmt`: for each row, `Rows.Scan` into the
`count` allocated cells (the driver rejects the call unless the
destination count equals the column count), then redistribute the buffer
into a fresh root record (`reflect.New(objectType).Elem()`, a struct
value). -/
def scanRows (rootFields : List Fld) (count cols : Nat) :
    List (List Cell) → Except String (List (List RVal))
| [] => Except.ok []
| row :: rest =>
  if count = cols then
    match bufferToFieldsVal rootFields row 0 with
    | Except.error e => Except.error e
    | Except.ok (_, vs) =>
      match scanRows rootFields count cols rest with
      | Except.error e => Except.error e
      | Except.ok l => Except.ok (vs :: l)
  else Except.error scanCountMismatchMsg

/-- `QueryStructStmt` (sql.go), instrumented with a flag telling whether
`r.Close()` was reached: the flattened leaf layout is computed, the column
count is checked against it (panic on excess, cursor left open), the rows
are scanned and redistributed (a scan failure panics, cursor left open),
and only after the loop does `util.CheckErr(r.Close())` run. -/
def queryStructStmtClose (rootFields : List Fld) (rs : ResultSet) :
    Bool × Except String (List (List RVal)) :=
  let fields := listStructFields rootFields 0
  let count := fields.length
  if rs.cols > count then (false, Except.error schemaMismatchMsg)
  else
    match scanRows rootFields count rs.cols rs.rows with
    | Except.error e => (false, Except.error e)
    | Except.ok recs => (true, Except.ok recs)

/-- `QueryStructStmt` proper: the list of materialized records. -/
def queryStructStmt (rootFields : List Fld) (rs : ResultSet) :
    Except String (List (List RVal)) :=
  (queryStructStmtClose rootFields rs).2

/-- `FindStructStmt` (sql.go): runs `QueryStructStmt`; an empty result
yields the typed nil pointer (`reflect.New(reflect.PtrTo(objectType))`),
otherwise a pointer to element 0. -/
def findStructStmt (rootFields : List Fld) (rs : ResultSet) :
    Except String (Option (List RVal)) :=
  match queryStructStmt rootFields rs with
  | Except.error e => Except.error e
  | Except.ok [] => Except.ok none
  | Except.ok (r :: _) => Except.ok (some r)

/- Concrete fixtures used by witnesses and counterexamples. -/

/-- A nested record with two scalar leaves (think `Address{A, B}`). -/
def addrAB : List Fld :=
  [Fld.mk "A" none Ty.scalar, Fld.mk "B" none Ty.scalar]

/-- A record whose only field is an optional nested record with two
leaves. -/
def personC1 : List Fld := [Fld.mk "Addr" none (Ty.ptrStruct addrAB)]

/-- A scanned row for `personC1`: the sub-tree's first leaf is NULL, its
second leaf is non-null. -/
def rowC1 : List Cell := [Cell.ptrNil, Cell.ptrVal (Sc.strV "x")]

/-- A record type with a single scalar leaf. -/
def idOnly : List Fld := [Fld.mk "Id" none Ty.scalar]

/-- Claim C1 (counterexample): with the sub-tree's first leaf NULL but a
later leaf non-null, the claim says the nested pointer stays nil; the code
allocates the nested record, because the `created` flag that guards
`object.Set(instance.Addr())` is never updated across loop iterations of
`bufferToFields`, so every field's leading cell acts as a sentinel. -/
theorem null_sentinel_first_leaf_counterexample :
    cellNonNilPtr (rowC1.getD 0 Cell.ptrNil) = false ∧
    bufferToFieldsVal personC1 rowC1 0 =
      Except.ok (2, [RVal.ptrStructV (some [RVal.cell none,
        RVal.cell (some (Sc.strV "x"))])]) ∧
    bufferToFieldsVal personC1 rowC1 0 ≠
      Except.ok (2, [RVal.ptrStructV none]) := by
  refine ⟨rfl, ?_, ?_⟩ <;>
    simp [bufferToFieldsVal, bufferToFieldsLoop, bufferToField, personC1,
      addrAB, rowC1, isArrayField, Fld.ty, cellNonNilPtr, cellValue]

/-- `bufferToField` on a scalar leaf field: consume one cell, store its
content, fire `Set` iff the cell is a non-nil pointer and `!created`. -/
theorem bufferToField_scalar (buffer : List Cell) (offset n : Nat)
    (created : Bool) (nm : String) (tg : Option String) :
    bufferToField buffer offset n created (Fld.mk nm tg Ty.scalar) =
      Except.ok (n + 1,
        RVal.cell (cellValue (buffer.getD (n + offset) Cell.ptrNil)),
        cellNonNilPtr (buffer.getD (n + offset) Cell.ptrNil) && !created) := by
  rw [bufferToField]
  all_goals intros
  all_goals simp_all

/-- Helper: the `bufferToFields` loop over a list of scalar leaf fields
with `created = false` consumes one cell per field, stores each cell's
content, and reports a `Set` trigger iff some cell is a non-nil pointer. -/
theorem bufferToFieldsLoop_scalars (fs : List Fld)
    (hfs : ∀ f ∈ fs, f.ty = Ty.scalar) (buffer : List Cell) (offset : Nat) :
    ∀ n, bufferToFieldsLoop fs buffer offset n false =
      Except.ok (n + fs.length,
        (List.range fs.length).map
          (fun i => RVal.cell (cellValue (buffer.getD (n + i + offset) Cell.ptrNil))),
        (List.range fs.length).any
          (fun i => cellNonNilPtr (buffer.getD (n + i + offset) Cell.ptrNil))) := by
  induction fs with
  | nil => intro n; simp [bufferToFieldsLoop]
  | cons f rest ih =>
    intro n
    obtain ⟨nm, tg, ty⟩ := f
    have hty : ty = Ty.scalar := hfs (Fld.mk nm tg ty) (by simp)
    subst hty
    have hrest : ∀ g ∈ rest, g.ty = Ty.scalar := fun g hg => hfs g (by simp [hg])
    rw [bufferToFieldsLoop]
    simp [bufferToField_scalar, ih hrest, Fld.ty,
      show isArrayField Ty.scalar = false from rfl,
      List.range_succ_eq_map, List.map_map, List.any_map, Function.comp_def,
      Nat.add_assoc, Nat.add_comm, Nat.add_left_comm]

/-- Claim C1 (amended): for a nested-record-by-reference field whose
sub-tree consists of scalar leaves, redistribution always consumes one cell
per leaf and assigns every leaf of the fresh instance from its cell; the
nested pointer is set iff AT LEAST ONE of the sub-tree's leaf cells is
non-null — the first leaf is not a privileged sentinel. -/
theorem null_sentinel_any_leaf (fs : List Fld)
    (hfs : ∀ f ∈ fs, f.ty = Ty.scalar) (buffer : List Cell) (offset : Nat) :
    bufferToFieldsPtr fs buffer offset =
      Except.ok (fs.length,
        if (List.range fs.length).any
            (fun i => cellNonNilPtr (buffer.getD (i + offset) Cell.ptrNil))
        then some ((List.range fs.length).map
          (fun i => RVal.cell (cellValue (buffer.getD (i + offset) Cell.ptrNil))))
        else none) := by
  rw [bufferToFieldsPtr, bufferToFieldsLoop_scalars fs hfs buffer offset 0]
  simp

/-- Witness for `null_sentinel_any_leaf` at the `rowC1` input. -/
theorem null_sentinel_any_leaf_witness :
    bufferToFieldsPtr addrAB rowC1 0 =
      Except.ok (2, some [RVal.cell none, RVal.cell (some (Sc.strV "x"))]) := by
  have h := null_sentinel_any_leaf addrAB
    (by intro f hf; simp [addrAB] at hf; rcases hf with rfl | rfl <;> rfl)
    rowC1 0
  simpa [addrAB, rowC1, cellNonNilPtr, cellValue, List.range_succ] using h

/-- Claim C2: a result set with more columns than flattened leaves makes
`QueryStructStmt` fail with the schema-mismatch error, whatever the rows
are (the check runs before any row is scanned, so no record is built). -/
theorem schema_mismatch_before_scan (rootFields : List Fld) (cols : Nat)
    (h : (listStructFields rootFields 0).length < cols)
    (rows : List (List Cell)) :
    queryStructStmt rootFields ⟨cols, rows⟩ = Except.error schemaMismatchMsg := by
  simp [queryStructStmt, queryStructStmtClose, h]

/-- Witness for `schema_mismatch_before_scan`: one leaf, two columns. -/
theorem schema_mismatch_before_scan_witness :
    queryStructStmt idOnly ⟨2, [[Cell.ptrVal (Sc.intV 1), Cell.ptrVal (Sc.intV 2)]]⟩ =
      Except.error schemaMismatchMsg :=
  schema_mismatch_before_scan idOnly 2
    (by simp [idOnly, listStructFields, addFieldsList, addOneField]) _

/-- Claim C6 (counterexample): on the schema-mismatch path
`QueryStructStmt` panics without reaching `r.Close()` — the cursor is NOT
closed on every path. -/
theorem rows_closed_counterexample :
    (queryStructStmtClose idOnly ⟨2, []⟩).1 = false ∧
    (queryStructStmtClose idOnly ⟨2, []⟩).2 = Except.error schemaMismatchMsg := by
  constructor <;>
    simp [queryStructStmtClose, idOnly, listStructFields, addFieldsList,
      addOneField]

/-- Claim C6 (amended): `QueryStructStmt` reaches `r.Close()` exactly on
the success path; on schema mismatch or a scan failure it panics with the
cursor still open (release is left to the enclosing transaction teardown). -/
theorem rows_closed_iff_success (rootFields : List Fld) (rs : ResultSet) :
    (queryStructStmtClose rootFields rs).1 = true ↔
      ∃ recs, (queryStructStmtClose rootFields rs).2 = Except.ok recs := by
  rw [queryStructStmtClose]
  by_cases h : rs.cols > (listStructFields rootFields 0).length
  · simp [h]
  · simp only [h, if_false]
    cases hscan : scanRows rootFields (listStructFields rootFields 0).length
        rs.cols rs.rows <;> simp

/-- Claim C9: with no matching row, `QueryStructStmt` returns the empty
sequence and `FindStructStmt` returns the absent (typed-nil) result, not
an error. -/
theorem no_rows_empty_and_absent (rootFields : List Fld) (cols : Nat)
    (h : cols ≤ (listStructFields rootFields 0).length) :
    queryStructStmt rootFields ⟨cols, []⟩ = Except.ok [] ∧
    findStructStmt rootFields ⟨cols, []⟩ = Except.ok none := by
  have hq : queryStructStmt rootFields ⟨cols, []⟩ = Except.ok [] := by
    simp [queryStructStmt, queryStructStmtClose, Nat.not_lt.mpr h, scanRows]
  exact ⟨hq, by simp [findStructStmt, hq]⟩

/-- Witness for `no_rows_empty_and_absent`. -/
theorem no_rows_empty_and_absent_witness :
    queryStructStmt idOnly ⟨1, []⟩ = Except.ok [] ∧
    findStructStmt idOnly ⟨1, []⟩ = Except.ok none :=
  no_rows_empty_and_absent idOnly 1
    (by simp [idOnly, listStructFields, addFieldsList, addOneField])

/-- Claim C10: whenever the mapped query yields at least one record,
`FindStructStmt` returns (a pointer to) the first one and ignores the
rest without error. -/
theorem find_returns_first_record (rootFields : List Fld) (rs : ResultSet)
    (v : List RVal) (vs : List (List RVal))
    (h : queryStructStmt rootFields rs = Except.ok (v :: vs)) :
    findStructStmt rootFields rs = Except.ok (some v) := by
  simp [findStructStmt, h]

/-- A flat two-leaf record and a two-row result set for the C10 witness. -/
def personFlat : List Fld :=
  [Fld.mk "Id" none Ty.scalar, Fld.mk "Name" none Ty.scalar]

def rsTwoRows : ResultSet :=
  ⟨2, [[Cell.ptrVal (Sc.intV 1), Cell.ptrVal (Sc.strV "Ann")],
       [Cell.ptrVal (Sc.intV 2), Cell.ptrVal (Sc.strV "Bo")]]⟩

/-- Witness for `find_returns_first_record`: two rows in the result set,
the first row's record is returned. -/
theorem find_returns_first_record_witness :
    findStructStmt personFlat rsTwoRows =
      Except.ok (some [RVal.cell (some (Sc.intV 1)),
        RVal.cell (some (Sc.strV "Ann"))]) :=
  find_returns_first_record personFlat rsTwoRows
    [RVal.cell (some (Sc.intV 1)), RVal.cell (some (Sc.strV "Ann"))]
    [[RVal.cell (some (Sc.intV 2)), RVal.cell (some (Sc.strV "Bo"))]]
    (by simp [queryStructStmt, queryStructStmtClose, scanRows, personFlat,
      rsTwoRows, listStructFields, addFieldsList, addOneField,
      bufferToFieldsVal, bufferToFieldsLoop, bufferToField, isArrayField,
      Fld.ty, cellNonNilPtr, cellValue])

/- SQL text generation and bind-value extraction (sql.go). -/

/-- Comma separation as produced by the `if i > 0 buffer.WriteString(", ")`
pattern. -/
def commaJoin : List String → String
| [] => ""
| [s] => s
| s :: rest => s ++ ", " ++ commaJoin rest

/-- Column-name resolution (`field.Tag.Lookup("sql")`, falling back to the
field identifier). -/
def resolvedName : Fld → String
| Fld.mk nm tg _ =>
  match tg with
  | some v => v
  | none => nm

/-- `forSelect` (sql.go): the comma-separated resolved names of the
TOP-LEVEL fields from `offset` on, each optionally alias-qualified.  The
loop does not flatten nested records and does not skip array fields. -/
def forSelect (fs : List Fld) (als : Option String) (offset : Nat) : String :=
  commaJoin ((fs.drop offset).map (fun f =>
    match als with
    | some a => a ++ "." ++ resolvedName f
    | none => resolvedName f))

/-- `ForInsert` (sql.go): `(<forSelect>) values($1, ..., $k)` where `k` is
the number of TOP-LEVEL fields from `offset` on. -/
def forInsert (fs : List Fld) (offset : Nat) : String :=
  "(" ++ forSelect fs none offset ++ ") values(" ++
    commaJoin ((List.range (fs.length - offset)).map
      (fun i => "$" ++ toString (i + 1))) ++ ")"

/-- `buildObjectFields` (sql.go): walk the instance's fields; a by-value
struct field (`f.Kind() == reflect.Struct`) is flattened recursively, every
other field — including slices and nested-record pointers — contributes
itself as a single value.  (In Go the struct-kind test would also fire for
a by-value `time.Time` and recurse into its unexported fields; the mapping
convention uses `*time.Time` leaves, so that case is not modelled.) -/
def buildObjectFields : List Fld → List RVal → List RVal
| Fld.mk _ _ (Ty.structVal gs) :: fs, RVal.structV ws :: vs =>
  buildObjectFields gs ws ++ buildObjectFields fs vs
| _ :: fs, v :: vs => v :: buildObjectFields fs vs
| _, _ => []

/-- `fieldsToBuffer` composed with the buffer sizing of
`ExecStructStmtOff` (sql.go): the bind buffer has one slot per flattened
leaf (`listStructFields(objectType, offset)`), and slot `i` receives
`buildObjectFields(value)[i + offset]`. -/
def fieldsToBuffer (rootFields : List Fld) (vals : List RVal) (offset : Nat) :
    List RVal :=
  ((buildObjectFields rootFields vals).drop offset).take
    (listStructFields rootFields offset).length

/-- The positional bind values `ExecStructStmtOff` passes to the prepared
statement. -/
def execStructStmtArgs (rootFields : List Fld) (vals : List RVal)
    (offset : Nat) : List RVal :=
  fieldsToBuffer rootFields vals offset

/-- Modelled from the spec (for comparison with `forInsert`): column list
built from the FLATTENED leaves' resolved names, arrays excluded, with one
positional placeholder per leaf. -/
def forInsertSpec (fs : List Fld) (offset : Nat) : String :=
  "(" ++ commaJoin ((listStructFields fs offset).map resolvedName) ++
    ") values(" ++
    commaJoin ((List.range (listStructFields fs offset).length).map
      (fun i => "$" ++ toString (i + 1))) ++ ")"

/-- Modelled from the spec (for comparison with `execStructStmtArgs`):
bind values taken from the instance in flattened leaf order, array fields
skipped identically to the flattener. -/
def leafValuesSpec : List Fld → List RVal → List RVal
| Fld.mk _ _ (Ty.structVal gs) :: fs, RVal.structV ws :: vs =>
  leafValuesSpec gs ws ++ leafValuesSpec fs vs
| Fld.mk _ _ (Ty.ptrStruct gs) :: fs, RVal.ptrStructV (some ws) :: vs =>
  leafValuesSpec gs ws ++ leafValuesSpec fs vs
| Fld.mk _ _ Ty.slice :: fs, _ :: vs => leafValuesSpec fs vs
| _ :: fs, v :: vs => v :: leafValuesSpec fs vs
| _, _ => []

/-- Spec-side bind list with the leading-field offset applied. -/
def execArgsSpec (fs : List Fld) (vals : List RVal) (offset : Nat) :
    List RVal :=
  leafValuesSpec (fs.drop offset) (vals.drop offset)

/-- A record type whose array field precedes its scalar field, with an
instance of it. -/
def tagsFirst : List Fld :=
  [Fld.mk "Tags" none Ty.slice, Fld.mk "Id" none Ty.scalar]

def tagsFirstVal : List RVal := [RVal.arrZ, RVal.cell (some (Sc.intV 7))]

/-- Claim C3 (counterexample): for a record with an array field the
generated INSERT text lists the array column and allocates a placeholder
for it (`forSelect`/`ForInsert` iterate top-level fields without skipping
arrays), and the bound values are NOT the flattened leaves' values: the
leaf-sized bind window starts at the array's position. -/
theorem insert_columns_flattened_counterexample :
    forInsert tagsFirst 0 = "(Tags, Id) values($1, $2)" ∧
    forInsertSpec tagsFirst 0 = "(Id) values($1)" ∧
    forInsert tagsFirst 0 ≠ forInsertSpec tagsFirst 0 ∧
    execStructStmtArgs tagsFirst tagsFirstVal 0 = [RVal.arrZ] ∧
    execArgsSpec tagsFirst tagsFirstVal 0 = [RVal.cell (some (Sc.intV 7))] ∧
    execStructStmtArgs tagsFirst tagsFirstVal 0 ≠
      execArgsSpec tagsFirst tagsFirstVal 0 := by
  refine ⟨rfl, rfl, by decide, ?_, ?_, ?_⟩ <;>
    simp [execStructStmtArgs, execArgsSpec, fieldsToBuffer,
      buildObjectFields, leafValuesSpec, tagsFirst, tagsFirstVal,
      listStructFields, addFieldsList, addOneField]

/-- Helper: flattening a list of scalar leaf fields is the identity. -/
theorem addFieldsList_scalars (fs : List Fld)
    (hfs : ∀ f ∈ fs, f.ty = Ty.scalar) : addFieldsList fs = fs := by
  induction fs with
  | nil => simp [addFieldsList]
  | cons f rest ih =>
    obtain ⟨nm, tg, ty⟩ := f
    have hty : ty = Ty.scalar := hfs (Fld.mk nm tg ty) (by simp)
    subst hty
    rw [addFieldsList, ih (fun g hg => hfs g (by simp [hg]))]
    rfl

/-- Helper: `buildObjectFields` on an all-scalar record returns the
instance's field values unchanged. -/
theorem buildObjectFields_scalars (fs : List Fld) (vals : List RVal)
    (hfs : ∀ f ∈ fs, f.ty = Ty.scalar) (hlen : vals.length = fs.length) :
    buildObjectFields fs vals = vals := by
  induction fs generalizing vals with
  | nil => cases vals with
    | nil => simp [buildObjectFields]
    | cons v vs => simp at hlen
  | cons f rest ih =>
    cases vals with
    | nil => simp at hlen
    | cons v vs =>
      obtain ⟨nm, tg, ty⟩ := f
      have hty : ty = Ty.scalar := hfs (Fld.mk nm tg ty) (by simp)
      subst hty
      have hstep : buildObjectFields (Fld.mk nm tg Ty.scalar :: rest) (v :: vs) =
          v :: buildObjectFields rest vs := by
        cases v <;> simp [buildObjectFields]
      rw [hstep, ih vs (fun g hg => hfs g (by simp [hg])) (by simpa using hlen)]

/-- Helper: the spec-side leaf extraction on an all-scalar record is also
the identity. -/
theorem leafValuesSpec_scalars (fs : List Fld) (vals : List RVal)
    (hfs : ∀ f ∈ fs, f.ty = Ty.scalar) (hlen : vals.length = fs.length) :
    leafValuesSpec fs vals = vals := by
  induction fs generalizing vals with
  | nil => cases vals with
    | nil => simp [leafValuesSpec]
    | cons v vs => simp at hlen
  | cons f rest ih =>
    cases vals with
    | nil => simp at hlen
    | cons v vs =>
      obtain ⟨nm, tg, ty⟩ := f
      have hty : ty = Ty.scalar := hfs (Fld.mk nm tg ty) (by simp)
      subst hty
      have hstep : leafValuesSpec (Fld.mk nm tg Ty.scalar :: rest) (v :: vs) =
          v :: leafValuesSpec rest vs := by
        cases v with
        | cell c => simp [leafValuesSpec]
        | arrZ => simp [leafValuesSpec]
        | structV ws => simp [leafValuesSpec]
        | ptrStructV o => cases o <;> simp [leafValuesSpec]
      rw [hstep, ih vs (fun g hg => hfs g (by simp [hg])) (by simpa using hlen)]

/-- Claim C3 (amended): the generated INSERT lists the TOP-LEVEL fields
from the offset (tag-resolved, unflattened, arrays included) with matching
positional placeholders, and the bind window is the flattened-leaf-sized
slice of `buildObjectFields` starting at the offset.  For record types all
of whose fields are scalar leaves these coincide with the claim as
stated: columns = flattened leaves' resolved names, placeholders
`$1..$n`, bound values = the leaves' values in the same order. -/
theorem insert_columns_match_for_flat_records (fs : List Fld)
    (vals : List RVal) (offset : Nat)
    (hfs : ∀ f ∈ fs, f.ty = Ty.scalar) (hlen : vals.length = fs.length) :
    forInsert fs offset = forInsertSpec fs offset ∧
    execStructStmtArgs fs vals offset = execArgsSpec fs vals offset := by
  have hdropf : ∀ g ∈ fs.drop offset, g.ty = Ty.scalar :=
    fun g hg => hfs g (List.mem_of_mem_drop hg)
  have hflat : listStructFields fs offset = fs.drop offset :=
    addFieldsList_scalars (fs.drop offset) hdropf
  constructor
  · simp [forInsert, forInsertSpec, forSelect, hflat, List.length_drop]
  · rw [execStructStmtArgs, fieldsToBuffer, execArgsSpec,
      buildObjectFields_scalars fs vals hfs hlen, hflat,
      leafValuesSpec_scalars (fs.drop offset) (vals.drop offset) hdropf
        (by simp [hlen]),
      List.length_drop, ← hlen, ← List.length_drop]
    exact List.take_length _

/-- Witness for `insert_columns_match_for_flat_records` on the flat
two-leaf record. -/
theorem insert_columns_match_for_flat_records_witness :
    forInsert personFlat 0 = forInsertSpec personFlat 0 ∧
    execStructStmtArgs personFlat
      [RVal.cell (some (Sc.intV 1)), RVal.cell (some (Sc.strV "Ann"))] 0 =
    execArgsSpec personFlat
      [RVal.cell (some (Sc.intV 1)), RVal.cell (some (Sc.strV "Ann"))] 0 :=
  insert_columns_match_for_flat_records personFlat
    [RVal.cell (some (Sc.intV 1)), RVal.cell (some (Sc.strV "Ann"))] 0
    (by intro f hf; simp [personFlat] at hf; rcases hf with rfl | rfl <;> rfl)
    (by simp [personFlat])

/- Transaction runtime (package tx, part_005). -/

/-- The isolation levels the runtime passes to `database/sql`. -/
inductive Isolation : Type where
| levelDefault : Isolation
| levelReadCommitted : Isolation
deriving DecidableEq

/-- The options a transaction is begun with (`sql.TxOptions`). -/
structure TxOpts where
  readOnly : Bool
  isolation : Isolation
deriving DecidableEq

/-- `db.Begin()` uses the driver defaults. -/
def beginOpts : TxOpts := ⟨false, Isolation.levelDefault⟩

/-- `db.BeginTx(ctx, &sql.TxOptions{ReadOnly: true,
Isolation: sql.LevelReadCommitted})` as used by `doExecuteRO`. -/
def beginOptsRO : TxOpts := ⟨true, Isolation.levelReadCommitted⟩

/-- Observable transaction-lifecycle events, in order of occurrence.
`fire k` is the invocation of the `k`-th registered Future callback. -/
inductive Ev : Type where
| begin : Ev
| commit : Ev
| rollback : Ev
| fire : Nat → Ev
deriving DecidableEq

/-- `AddFuture` (part_005): lazily allocates the queue
(`make([]Future, 1)`) on first use, appends afterwards. -/
def addFuture (future : Option (List Nat)) (f : Nat) : Option (List Nat) :=
  match future with
  | none => some [f]
  | some fs => some (fs ++ [f])

/-- The queue after the body has issued its `AddFuture` calls in order. -/
def registerFutures (calls : List Nat) : Option (List Nat) :=
  calls.foldl addFuture none

/-- The `if trx.future != nil` guard of `doExecute` followed by the firing
loop: a nil queue fires nothing. -/
def futuresOf (future : Option (List Nat)) : List Nat :=
  match future with
  | none => []
  | some fs => fs

/-- The transaction body as the runtime observes it: the `AddFuture`
registrations it performs (in order) and whether it returns normally
(`some r`) or panics (`none`). -/
structure BodyModel (α : Type) where
  calls : List Nat
  outcome : Option α

/-- `doExecute` (part_005): begin, run the body, commit; a body panic or a
commit failure reaches `RollbackOnPanic`, which rolls back and re-panics
(result `none`); only after a successful commit does the future loop run.
Returns the begin options, the event trace, and the returned value. -/
def doExecute (commitOk : Bool) (body : BodyModel α) :
    TxOpts × List Ev × Option α :=
  match body.outcome with
  | none => (beginOpts, [Ev.begin, Ev.rollback], none)
  | some r =>
    if commitOk then
      (beginOpts, [Ev.begin, Ev.commit] ++
        (futuresOf (registerFutures body.calls)).map Ev.fire, some r)
    else (beginOpts, [Ev.begin, Ev.rollback], none)

/-- `doExecuteRO` (part_005): begins read-only at read-committed
isolation, same begin/body/commit/rollback structure as `doExecute`, but
contains NO future-firing loop after the commit. -/
def doExecuteRO (commitOk : Bool) (body : BodyModel α) :
    TxOpts × List Ev × Option α :=
  match body.outcome with
  | none => (beginOptsRO, [Ev.begin, Ev.rollback], none)
  | some r =>
    if commitOk then (beginOptsRO, [Ev.begin, Ev.commit], some r)
    else (beginOptsRO, [Ev.begin, Ev.rollback], none)

/-- The callbacks a trace fired, in order. -/
def firedEvents (tr : List Ev) : List Nat :=
  tr.filterMap (fun e =>
    match e with
    | Ev.fire k => some k
    | _ => none)

/-- Whether an event is a Future-callback invocation. -/
def isFire : Ev → Bool
| Ev.fire _ => true
| _ => false

/-- Helper: the lazily allocated future queue holds exactly the
registration sequence. -/
theorem registerFutures_eq (calls : List Nat) :
    futuresOf (registerFutures calls) = calls := by
  have haux : ∀ (rest fs : List Nat),
      List.foldl addFuture (some fs) rest = some (fs ++ rest) := by
    intro rest
    induction rest with
    | nil => intro fs; simp
    | cons c cs ih => intro fs; simp [addFuture, ih]
  cases calls with
  | nil => rfl
  | cons c cs => simp [registerFutures, futuresOf, addFuture, haux]

/-- Claim C4: the registered Future callbacks fire iff the body returned
normally AND the commit succeeded; in that case they fire exactly once
each, in registration order, strictly after the commit event; on a body
panic or commit failure nothing fires and the transaction rolls back. -/
theorem futures_fire_iff_committed (α : Type) (commitOk : Bool)
    (body : BodyModel α) :
    (doExecute commitOk body).2.1 =
      (if body.outcome.isSome && commitOk
       then [Ev.begin, Ev.commit] ++ body.calls.map Ev.fire
       else [Ev.begin, Ev.rollback]) ∧
    firedEvents (doExecute commitOk body).2.1 =
      (if body.outcome.isSome && commitOk then body.calls else []) := by
  obtain ⟨calls, outcome⟩ := body
  cases outcome with
  | none => simp [doExecute, firedEvents]
  | some r =>
    cases commitOk with
    | false => simp [doExecute, firedEvents]
    | true =>
      constructor
      · simp [doExecute, registerFutures_eq]
      · simp [doExecute, registerFutures_eq, firedEvents,
          List.filterMap_append, List.filterMap_map, Function.comp_def]

/-- Claim C5 (counterexample): a Future registered during a read-only body
does NOT run after the read-only commit, although the same body under
`Execute` fires it — `doExecuteRO` has no future loop. -/
theorem ro_futures_counterexample :
    firedEvents (doExecuteRO true (⟨[7], some 0⟩ : BodyModel Nat)).2.1 = [] ∧
    firedEvents (doExecute true (⟨[7], some 0⟩ : BodyModel Nat)).2.1 = [7] := by
  constructor
  · simp [doExecuteRO, firedEvents]
  · simp [doExecute, firedEvents, registerFutures, addFuture, futuresOf]

/-- Claim C5 (amended): `doExecuteRO` begins with the read-only flag and
read-committed isolation, returns the same result as `doExecute` and
follows the same begin/commit/rollback lifecycle, EXCEPT that registered
Future callbacks are never executed: its trace is `doExecute`'s trace with
the fire events removed. -/
theorem ro_lifecycle_no_futures (α : Type) (commitOk : Bool)
    (body : BodyModel α) :
    (doExecuteRO commitOk body).1 = beginOptsRO ∧
    beginOptsRO.readOnly = true ∧
    beginOptsRO.isolation = Isolation.levelReadCommitted ∧
    (doExecuteRO commitOk body).2.2 = (doExecute commitOk body).2.2 ∧
    (doExecuteRO commitOk body).2.1 =
      (doExecute commitOk body).2.1.filter (fun e => !isFire e) := by
  obtain ⟨calls, outcome⟩ := body
  refine ⟨?_, rfl, rfl, ?_, ?_⟩ <;>
    cases outcome <;> cases commitOk <;>
      simp [doExecute, doExecuteRO, isFire, List.filter_append,
        List.filter_map, Function.comp_def]

/- Statement/SQL cache (part_005). -/

/-- The transaction-scoped statement caches, plus an instrumentation log
of every `tx.Prepare` call in order.  Prepared-statement handles are
numbered consecutively. -/
structure TxState where
  stmtMap : List (String × Nat)
  insMap : List (String × Nat)
  prepareLog : List String
  nextId : Nat
deriving DecidableEq

/-- `tx.Prepare`: returns a fresh handle and logs the SQL text. -/
def txPrepare (s : TxState) (sqlText : String) : Nat × TxState :=
  (s.nextId, ⟨s.stmtMap, s.insMap, s.prepareLog ++ [sqlText], s.nextId + 1⟩)

/-- `resolveStmt` (part_005): look the text up in `stmtMap`; prepare and
cache on miss. -/
def resolveStmt (s : TxState) (sqlText : String) : Nat × TxState :=
  match s.stmtMap.lookup sqlText with
  | some h => (h, s)
  | none =>
    let p := txPrepare s sqlText
    (p.1, ⟨(sqlText, p.1) :: p.2.stmtMap, p.2.insMap, p.2.prepareLog, p.2.nextId⟩)

/-- The INSERT sentence `InsertMapped` builds on a cache miss:
`"insert into" + schema + "." + name` followed by the column/placeholder
text.  (part_005 calls a buffer-writing `sql2.ForInsert(data, offset, buf)`
variant whose definition is not under src/; its output is modelled with
the string-returning `ForInsert` of sql.go, which is irrelevant to the
caching behaviour verified here.) -/
def insertSentence (schema name : String) (fs : List Fld) : String :=
  "insert into" ++ schema ++ "." ++ name ++ forInsert fs 0

/-- `InsertMapped` (part_005), its cache part: key `schema + "." + name`
into `insMap`; on miss generate the sentence, prepare it and cache the
handle; on hit reuse the handle with no generation and no preparation. -/
def insertMappedStmt (s : TxState) (schema name : String) (fs : List Fld) :
    Nat × TxState :=
  let key := schema ++ "." ++ name
  match s.insMap.lookup key with
  | some h => (h, s)
  | none =>
    let sentence := insertSentence schema name fs
    let p := txPrepare s sentence
    (p.1, ⟨p.2.stmtMap, (key, p.1) :: p.2.insMap, p.2.prepareLog, p.2.nextId⟩)

/-- Claim C8: within one transaction, resolving the same ad hoc SQL text a
second time returns the cached handle and leaves the state — in particular
the prepare log — unchanged; likewise a second `InsertMapped` for the same
(schema, type-name) key reuses the cached generated statement without
generating or preparing again. -/
theorem stmt_cache_prepares_once (s : TxState) (sqlText : String)
    (schema name : String) (fs : List Fld) :
    resolveStmt (resolveStmt s sqlText).2 sqlText = resolveStmt s sqlText ∧
    insertMappedStmt (insertMappedStmt s schema name fs).2 schema name fs =
      insertMappedStmt s schema name fs := by
  constructor
  · cases h : s.stmtMap.lookup sqlText with
    | some v => simp [resolveStmt, h]
    | none => simp [resolveStmt, h, txPrepare, List.lookup]
  · cases h : s.insMap.lookup (schema ++ "." ++ name) with
    | some v => simp [insertMappedStmt, h]
    | none => simp [insertMappedStmt, h, txPrepare, List.lookup]

end Toolkit
